import Mathlib

/-!
Verification of the custom_symbol_data_loader repository: a shallow embedding
of `src/data_sources.py` (CSV readers, storage-key derivation, granularity
handling) and `src/fills.py` (the imported-quote fill model), together with
theorems settling the frozen claims.

Modelling conventions:
* Python strings are `PyStr := List Char`; `str.split`, `str.strip`,
  `str.lower`, `str.upper` are re-implemented structurally below.
* Python `datetime` values are integers of seconds on the (unbounded) UTC
  timeline; `timedelta` values are integers of seconds.  `datetime` arithmetic
  on naive values coincides with integer arithmetic on this timeline.  The
  host-language limits of the datetime range (years 1..9999) are modelled
  where they interact with a claim (the `fromtimestamp` conversion in the
  trade readers, whose input magnitude is unbounded); the `strptime`-based
  readers produce in-range values by construction from 4-digit years.
* Prices are rationals; the CSV float literals of the data files are finite
  decimals, parsed exactly.
* Python functions that swallow every exception and return `None` are total
  Lean functions into `Option`; functions that raise configuration errors
  return `Except`.
-/

/-! ## Definitions: the shallow embedding of the source -/

/-- Python strings, as lists of characters. -/
abbrev PyStr := List Char

/-- The whitespace characters removed by Python `str.strip()`. -/
def pyIsSpace (c : Char) : Bool :=
  c == ' ' || c == '\t' || c == '\n' || c == '\r' || c == '\x0b' || c == '\x0c'

/-- Python `str.strip()`: remove leading and trailing whitespace. -/
def pyStrip (s : PyStr) : PyStr :=
  ((s.dropWhile pyIsSpace).reverse.dropWhile pyIsSpace).reverse

/-- Python `str.split(sep)` for a one-character separator: never drops empty
pieces, and the empty string splits to `[""]`. -/
def splitOnChar (sep : Char) : PyStr → List PyStr
  | [] => [[]]
  | c :: rest =>
    if c = sep then [] :: splitOnChar sep rest
    else
      match splitOnChar sep rest with
      | [] => [[c]]
      | h :: t => (c :: h) :: t

/-- Python `str.lower()` (ASCII range, which covers every string these
components handle). -/
def pyLower (s : PyStr) : PyStr := s.map Char.toLower

/-- Python `str.upper()` (ASCII range). -/
def pyUpper (s : PyStr) : PyStr := s.map Char.toUpper

/-- `_GRANULARITY_MAP_SECONDS`: whole seconds to granularity label. -/
def granularityMapSeconds (secs : Int) : Option PyStr :=
  if secs = 1 then some "1s".data
  else if secs = 60 then some "1min".data
  else if secs = 300 then some "5min".data
  else if secs = 900 then some "15min".data
  else if secs = 1800 then some "30min".data
  else if secs = 3600 then some "1h".data
  else if secs = 14400 then some "4h".data
  else if secs = 86400 then some "1d".data
  else none

/-- The seconds values that `_GRANULARITY_MAP_SECONDS` recognizes. -/
def granularitySupportedSeconds : List Int :=
  [1, 60, 300, 900, 1800, 3600, 14400, 86400]

/-- `_VALID_GRANULARITIES`: the fixed enumerated set of granularity labels. -/
def validGranularities : List PyStr :=
  ["1s".data, "1min".data, "5min".data, "15min".data,
   "30min".data, "1h".data, "4h".data, "1d".data]

/-- The key string built by `format_fx_filename` once validation has passed:
`fx-<PAIR>-<kind>-<granularity>-<tz>[-<source>].csv`.  An empty `source`
string is falsy in Python, so it produces no suffix. -/
def fxKey (pair kind gran tz : PyStr) (src? : Option PyStr) : PyStr :=
  "fx-".data ++ pyUpper pair ++ "-".data ++ pyLower kind ++ "-".data ++
    pyLower gran ++ "-".data ++ pyLower tz ++
    (match src? with
     | some s => if s.isEmpty then [] else "-".data ++ pyLower s
     | none => []) ++ ".csv".data

/-- `format_fx_filename` (lines 142-158): normalizes case, validates the
granularity label against the fixed set, and either raises `ValueError`
(modelled as `Except.error`) or returns the key. -/
def formatFxFilename (pair kind gran tz : PyStr) (src? : Option PyStr) :
    Except PyStr PyStr :=
  let gran' := pyLower gran
  if gran' ∈ validGranularities then Except.ok (fxKey pair kind gran tz src?)
  else Except.error ("Unsupported granularity ".data ++ gran')

/-- `_extract_pair_and_granularity` (lines 161-179): upper-case the alias,
take the first six characters as the pair, and look for a trailing
`_<GRAN>` token (the regex `_(1S|1MIN|5MIN|15MIN|30MIN|1H|4H|1D)$`); fall
back to the supplied default granularity when no token matches. -/
def extractPairAndGranularity (symbolValue : PyStr) (defaultGran : PyStr) :
    PyStr × PyStr :=
  let s := pyUpper symbolValue
  let pair := s.take 6
  let tok? : Option PyStr :=
    if List.isSuffixOf "_1S".data s then some "1S".data
    else if List.isSuffixOf "_1MIN".data s then some "1MIN".data
    else if List.isSuffixOf "_5MIN".data s then some "5MIN".data
    else if List.isSuffixOf "_15MIN".data s then some "15MIN".data
    else if List.isSuffixOf "_30MIN".data s then some "30MIN".data
    else if List.isSuffixOf "_1H".data s then some "1H".data
    else if List.isSuffixOf "_4H".data s then some "4H".data
    else if List.isSuffixOf "_1D".data s then some "1D".data
    else none
  match tok? with
  | some tok =>
    let gran := pyLower tok
    (pair, if gran ∈ validGranularities then gran else defaultGran)
  | none => (pair, defaultGran)

/-- `_granularity_from_increment` (lines 182-186): `None` (and the falsy zero
increment) default to `"1min"`; otherwise the whole-second length is looked
up in the table with `"1min"` as the default. -/
def granularityFromIncrement (inc : Option Int) : PyStr :=
  match inc with
  | none => "1min".data
  | some secs =>
    if secs = 0 then "1min".data
    else (granularityMapSeconds secs).getD "1min".data

/-- `_granularity_to_timedelta` (lines 193-212), in seconds; unrecognized
labels fall back to one minute. -/
def granularityToTimedelta (gran : PyStr) : Int :=
  let g := pyLower gran
  if g = "1s".data then 1
  else if g = "1min".data then 60
  else if g = "5min".data then 300
  else if g = "15min".data then 900
  else if g = "30min".data then 1800
  else if g = "1h".data then 3600
  else if g = "4h".data then 14400
  else if g = "1d".data then 86400
  else 60

/-- `_is_empty_line` (lines 189-190): true for the empty line, for
whitespace-only lines, and for lines whose first character is not a digit. -/
def isEmptyLine (line : PyStr) : Bool :=
  match line with
  | [] => true
  | c :: _ => (pyStrip line).isEmpty || !c.isDigit

/-- The numeric value of an ASCII digit character. -/
def digToNat (c : Char) : Nat := c.toNat - 48

/-- Whether every character of the string is an ASCII digit. -/
def allDigits (s : PyStr) : Bool := s.all Char.isDigit

/-- The natural number denoted by a digit string. -/
def charsToNat (s : PyStr) : Nat :=
  s.foldl (fun a c => a * 10 + digToNat c) 0

/-- Parse a nonempty all-digit string. -/
def parseNatAll (s : PyStr) : Option Nat :=
  if s.isEmpty then none
  else if allDigits s then some (charsToNat s) else none

/-- Python `int(str)`: strip whitespace, optional sign, digits; anything else
raises (modelled as `none`). -/
def parseInt? (s0 : PyStr) : Option Int :=
  let s := pyStrip s0
  match s with
  | '+' :: rest => (parseNatAll rest).map (fun n => (n : Int))
  | '-' :: rest => (parseNatAll rest).map (fun n => -(n : Int))
  | _ => (parseNatAll s).map (fun n => (n : Int))

/-- Split at the first character satisfying `p`, returning the part before it
and (when found) the part after it. -/
def splitAtFirst (p : Char → Bool) : PyStr → PyStr × Option PyStr
  | [] => ([], none)
  | c :: rest =>
    if p c then ([], some rest)
    else
      let r := splitAtFirst p rest
      (c :: r.1, r.2)

/-- The unsigned decimal mantissa of a float literal: `digits`,
`digits.digits`, `digits.` or `.digits` (at least one digit in total). -/
def parseDecMantissa (s : PyStr) : Option ℚ :=
  let ip := (splitAtFirst (fun c => c == '.') s).1
  match (splitAtFirst (fun c => c == '.') s).2 with
  | none => (parseNatAll ip).map (fun n => (n : ℚ))
  | some fp =>
    if allDigits ip && allDigits fp && !(ip.isEmpty && fp.isEmpty) then
      some ((charsToNat ip : ℚ) + (charsToNat fp : ℚ) / (10 : ℚ) ^ fp.length)
    else none

/-- Ten to an integer power, as a rational. -/
def pow10Z (e : Int) : ℚ :=
  if 0 ≤ e then (10 : ℚ) ^ e.toNat else 1 / (10 : ℚ) ^ (-e).toNat

/-- The exponent part of a float literal: optional sign then digits. -/
def parseExp (s : PyStr) : Option Int :=
  match s with
  | '+' :: rest => (parseNatAll rest).map (fun n => (n : Int))
  | '-' :: rest => (parseNatAll rest).map (fun n => -(n : Int))
  | _ => (parseNatAll s).map (fun n => (n : Int))

/-- Python `float(str)` on the finite decimal literals these CSV files carry:
strip whitespace, optional sign, decimal mantissa, optional `e`/`E` exponent.
(The special forms `inf`/`nan` and `_` digit separators do not occur in this
data and are not modelled; they parse to `none`.) -/
def parseFloat? (s0 : PyStr) : Option ℚ :=
  let s1 := pyStrip s0
  let sgn : ℚ := match s1 with
    | '-' :: _ => -1
    | _ => 1
  let s2 : PyStr := match s1 with
    | '+' :: rest => rest
    | '-' :: rest => rest
    | _ => s1
  let mant := (splitAtFirst (fun c => c == 'e' || c == 'E') s2).1
  match (splitAtFirst (fun c => c == 'e' || c == 'E') s2).2 with
  | none => (parseDecMantissa mant).map (fun q => sgn * q)
  | some es =>
    match parseDecMantissa mant, parseExp es with
    | some q, some e => some (sgn * q * pow10Z e)
    | _, _ => none

/-- Leap years of the proleptic Gregorian calendar (Python `calendar`). -/
def isLeapYear (y : Int) : Bool :=
  (y % 4 == 0 && y % 100 != 0) || y % 400 == 0

/-- Days in a month (used by `datetime`'s day-of-month validation). -/
def daysInMonth (y m : Int) : Int :=
  if m = 2 then (if isLeapYear y then 29 else 28)
  else if m = 4 ∨ m = 6 ∨ m = 9 ∨ m = 11 then 30
  else 31

/-- Days from 1970-01-01 to the given civil date (proleptic Gregorian),
the standard era-based algorithm with truncating integer division. -/
def daysFromCivil (y m d : Int) : Int :=
  let y' := if m ≤ 2 then y - 1 else y
  let era : Int := (if 0 ≤ y' then y' else y' - 399) / 400
  let yoe := y' - era * 400
  let doy := (153 * (m + (if 2 < m then -3 else 9)) + 2) / 5 + d - 1
  let doe := yoe * 365 + yoe / 4 - yoe / 100 + doy
  era * 146097 + doe - 719468

/-- Seconds since the Unix epoch of a civil date-time. -/
def civilToSecs (y mo dy hh mi ss : Int) : Int :=
  daysFromCivil y mo dy * 86400 + hh * 3600 + mi * 60 + ss

/-- `datetime.strptime(s, "%Y-%m-%d %H:%M:%S")`: a 4-digit year, 2-digit
month/day/hour/minute/second with the separators shown, validated to a real
calendar date-time (Python's `datetime` constructor rejects out-of-range
components).  Returns seconds since the epoch. -/
def parseDateTime (s : PyStr) : Option Int :=
  match s with
  | [y1, y2, y3, y4, '-', mo1, mo2, '-', dy1, dy2, ' ',
     h1, h2, ':', mi1, mi2, ':', s1, s2] =>
    if (y1.isDigit && y2.isDigit && y3.isDigit && y4.isDigit &&
        mo1.isDigit && mo2.isDigit && dy1.isDigit && dy2.isDigit &&
        h1.isDigit && h2.isDigit && mi1.isDigit && mi2.isDigit &&
        s1.isDigit && s2.isDigit) then
      let y : Int := (1000 * digToNat y1 + 100 * digToNat y2 +
        10 * digToNat y3 + digToNat y4 : Nat)
      let mo : Int := (10 * digToNat mo1 + digToNat mo2 : Nat)
      let dy : Int := (10 * digToNat dy1 + digToNat dy2 : Nat)
      let hh : Int := (10 * digToNat h1 + digToNat h2 : Nat)
      let mi : Int := (10 * digToNat mi1 + digToNat mi2 : Nat)
      let ss : Int := (10 * digToNat s1 + digToNat s2 : Nat)
      if 1 ≤ y ∧ 1 ≤ mo ∧ mo ≤ 12 ∧ 1 ≤ dy ∧ dy ≤ daysInMonth y mo ∧
          hh ≤ 23 ∧ mi ≤ 59 ∧ ss ≤ 59 then
        some (civilToSecs y mo dy hh mi ss)
      else none
    else none
  | _ => none

/-- `datetime.strptime(s, "%Y-%m-%d")`: the validated (year, month, day). -/
def parseDateYMD (s : PyStr) : Option (Nat × Nat × Nat) :=
  match s with
  | [y1, y2, y3, y4, '-', mo1, mo2, '-', dy1, dy2] =>
    if (y1.isDigit && y2.isDigit && y3.isDigit && y4.isDigit &&
        mo1.isDigit && mo2.isDigit && dy1.isDigit && dy2.isDigit) then
      let y := 1000 * digToNat y1 + 100 * digToNat y2 +
        10 * digToNat y3 + digToNat y4
      let mo := 10 * digToNat mo1 + digToNat mo2
      let dy := 10 * digToNat dy1 + digToNat dy2
      if 1 ≤ y ∧ 1 ≤ mo ∧ mo ≤ 12 ∧ 1 ≤ dy ∧
          (dy : Int) ≤ daysInMonth (y : Int) (mo : Int) then
        some (y, mo, dy)
      else none
    else none
  | _ => none

/-- `date.strftime("%Y-%m-%d")` for the in-range dates produced above. -/
def renderDateYMD (y mo dy : Nat) : PyStr :=
  [Char.ofNat (48 + y / 1000 % 10), Char.ofNat (48 + y / 100 % 10),
   Char.ofNat (48 + y / 10 % 10), Char.ofNat (48 + y % 10), '-',
   Char.ofNat (48 + mo / 10 % 10), Char.ofNat (48 + mo % 10), '-',
   Char.ofNat (48 + dy / 10 % 10), Char.ofNat (48 + dy % 10)]

/-- `datetime.fromtimestamp(ts, tz=timezone.utc)` on whole seconds: the
identity on the timeline, defined only inside the representable datetime
range (years 1 to 9999); outside it Python raises, which the callers turn
into `none`. -/
def fromtimestampUtc (ts : Int) : Option Int :=
  if civilToSecs 1 1 1 0 0 0 ≤ ts ∧ ts ≤ civilToSecs 9999 12 31 23 59 59 then
    some ts
  else none

/-- The slice of `SubscriptionDataConfig` these readers consult: the
requested sampling increment (whole seconds) and the symbol alias string. -/
structure ReaderConfig where
  increment : Option Int
  symbolValue : PyStr

/-- A four-number OHLC group (the host's `Bar`). -/
@[ext] structure FxBar where
  o : ℚ
  h : ℚ
  l : ℚ
  c : ℚ
deriving DecidableEq

/-- The host's `QuoteBar` as these components use it: start/end time and
period on the seconds timeline, optional bid and ask OHLC groups, the
representative `value`, and the symbol string it was created for. -/
@[ext] structure QuoteBarRec where
  time : Int
  endTime : Int
  period : Int
  bid : Option FxBar
  ask : Option FxBar
  value : ℚ
  symbolVal : PyStr
deriving DecidableEq

/-- The trade record yielded by `TradingViewEurUsdTradeData`. -/
@[ext] structure TradeRec where
  time : Int
  endTime : Int
  period : Int
  o : ℚ
  h : ℚ
  l : ℚ
  c : ℚ
  volume : Int
  value : ℚ
  symbolVal : PyStr
deriving DecidableEq

/-- The record yielded by `NewsDayState`. -/
@[ext] structure NewsRec where
  time : Int
  endTime : Int
  value : Int
  dayState : Int
  symbolVal : PyStr
deriving DecidableEq

/-- The record yielded by `HolidayData`; `holidayDate` is the raw CSV date
string stored in the record's `"HolidayDate"` field. -/
@[ext] structure HolidayRec where
  time : Int
  endTime : Int
  value : Int
  holidayDate : PyStr
  symbolVal : PyStr
deriving DecidableEq

/-- Application of the module-wide `_GLOBAL_DELTA` to a timestamp.  (Python
guards with the truthiness of the timedelta, so a zero delta skips the
addition; adding zero is the identity, which the model folds together.) -/
def applyDelta (gdelta : Option Int) (t : Int) : Int :=
  match gdelta with
  | none => t
  | some d => t + d

/-- The granularity each reader derives for the current subscription: the
alias (defaulting to `"EURUSD"` when falsy) is scanned for a trailing token,
falling back to the granularity implied by the increment. -/
def derivedGran (cfg : ReaderConfig) : PyStr :=
  (extractPairAndGranularity
    (if cfg.symbolValue.isEmpty then "EURUSD".data else cfg.symbolValue)
    (granularityFromIncrement cfg.increment)).2

/-- The period (seconds) implied by the derived granularity. -/
def derivedPeriod (cfg : ReaderConfig) : Int :=
  granularityToTimedelta (derivedGran cfg)

/-- Parse four consecutive CSV fields as floats, exactly when the slice has
four fields and each converts (Python's tuple unpacking of
`map(float, ...)`). -/
def parse4Floats (l : List PyStr) : Option (ℚ × ℚ × ℚ × ℚ) :=
  match l with
  | [a, b, c, d] =>
    match parseFloat? a, parseFloat? b, parseFloat? c, parseFloat? d with
    | some qa, some qb, some qc, some qd => some (qa, qb, qc, qd)
    | _, _, _, _ => none
  | _ => none

/-- `CustomEurUsdQuoteData.reader` (lines 254-284): skip non-data lines,
parse the date and the two OHLC groups from fields 1-4 and 5-8, derive the
period from the subscription, and build the quote bar.  Every parse failure
is swallowed into `none`.  (`qb.value = qb.close`, and the host's close of a
two-sided quote bar is the midpoint of the bid and ask closes.) -/
def readerQuote (gdelta : Option Int) (cfg : ReaderConfig) (line : PyStr) :
    Option QuoteBarRec :=
  if isEmptyLine line then none
  else
    let data := splitOnChar ',' line
    match parseDateTime (pyStrip (data.headD [])) with
    | none => none
    | some t0 =>
      let t := applyDelta gdelta t0
      match parse4Floats ((data.drop 1).take 4),
          parse4Floats ((data.drop 5).take 4) with
      | some (b1, b2, b3, b4), some (a1, a2, a3, a4) =>
        let period := derivedPeriod cfg
        some { time := t, endTime := t + period, period := period,
               bid := some ⟨b1, b2, b3, b4⟩, ask := some ⟨a1, a2, a3, a4⟩,
               value := (b4 + a4) / 2, symbolVal := cfg.symbolValue }
      | _, _ => none

/-- The timestamp normalization of the trade readers: integers above `10^12`
are treated as milliseconds and floor-divided down to seconds. -/
def normalizeTs (ts : Int) : Int :=
  if (10 : Int) ^ (12 : Nat) < ts then ts / 1000 else ts

/-- The trade-field block of `TradingViewEurUsdTradeData.reader`: fields 1-4
as floats and field 5 as an integer volume (missing fields raise
`IndexError`, modelled by the `Option` lookups). -/
def parseTradeFields (parts : List PyStr) : Option (ℚ × ℚ × ℚ × ℚ × Int) :=
  match (parts.get? 1).bind parseFloat?, (parts.get? 2).bind parseFloat?,
      (parts.get? 3).bind parseFloat?, (parts.get? 4).bind parseFloat?,
      (parts.get? 5).bind parseInt? with
  | some q1, some q2, some q3, some q4, some v => some (q1, q2, q3, q4, v)
  | _, _, _, _, _ => none

/-- `TradingViewEurUsdTradeData.reader` (lines 315-350): skip non-data and
header lines, read a Unix timestamp (milliseconds are divided down), convert
to UTC, parse OHLC and volume, and build the trade record. -/
def readerTrade (gdelta : Option Int) (cfg : ReaderConfig) (line : PyStr) :
    Option TradeRec :=
  if isEmptyLine line || List.isPrefixOf "time".data line then none
  else
    let parts := splitOnChar ',' line
    match parseInt? (pyStrip (parts.headD [])) with
    | none => none
    | some tsRaw =>
      match fromtimestampUtc (normalizeTs tsRaw) with
      | none => none
      | some t0 =>
        let t := applyDelta gdelta t0
        match parseTradeFields parts with
        | none => none
        | some (q1, q2, q3, q4, vol) =>
          let period := derivedPeriod cfg
          some { time := t, endTime := t + period, period := period,
                 o := q1, h := q2, l := q3, c := q4, volume := vol,
                 value := q4, symbolVal := cfg.symbolValue }

/-- `SimulatedEurUsdQuoteData.reader` (lines 388-439): the trade-file parse
of `readerTrade` (without the volume field), then bid = price − bid delta
and ask = price + ask delta on each of open/high/low/close, using the
module-wide simulated spread deltas. -/
def readerSimulated (bidDelta askDelta : ℚ) (gdelta : Option Int)
    (cfg : ReaderConfig) (line : PyStr) : Option QuoteBarRec :=
  if isEmptyLine line || List.isPrefixOf "time".data line then none
  else
    let parts := splitOnChar ',' line
    match parseInt? (pyStrip (parts.headD [])) with
    | none => none
    | some tsRaw =>
      match fromtimestampUtc (normalizeTs tsRaw) with
      | none => none
      | some t0 =>
        let t := applyDelta gdelta t0
        match (parts.get? 1).bind parseFloat?, (parts.get? 2).bind parseFloat?,
            (parts.get? 3).bind parseFloat?, (parts.get? 4).bind parseFloat? with
        | some q1, some q2, some q3, some q4 =>
          let period := derivedPeriod cfg
          some { time := t, endTime := t + period, period := period,
                 bid := some ⟨q1 - bidDelta, q2 - bidDelta, q3 - bidDelta,
                   q4 - bidDelta⟩,
                 ask := some ⟨q1 + askDelta, q2 + askDelta, q3 + askDelta,
                   q4 + askDelta⟩,
                 value := ((q4 - bidDelta) + (q4 + askDelta)) / 2,
                 symbolVal := cfg.symbolValue }
        | _, _, _, _ => none

/-- `NewsDayState.reader` (lines 524-558): skip blank and header lines,
require exactly two fields, parse the timestamp and the integer day state;
the record's start and end time coincide. -/
def readerNews (gdelta : Option Int) (cfg : ReaderConfig) (line : PyStr) :
    Option NewsRec :=
  if (pyStrip line).isEmpty || List.isPrefixOf "date".data line then none
  else
    let data := splitOnChar ',' line
    if data.length ≠ 2 then none
    else
      match parseDateTime (pyStrip (data.headD [])) with
      | none => none
      | some t0 =>
        match parseInt? (pyStrip (data.getD 1 [])) with
        | none => none
        | some st =>
          let t := applyDelta gdelta t0
          some { time := t, endTime := t, value := st, dayState := st,
                 symbolVal := cfg.symbolValue }

/-- `HolidayData.reader` (lines 579-611): skip blank lines and the
`holiday_date` header, parse the first field as an ISO date, and emit a
record at midnight of that date.  The global delta shifts only `time` and
`end_time`; the `"HolidayDate"` field always re-renders the raw CSV date. -/
def readerHoliday (gdelta : Option Int) (cfg : ReaderConfig) (line : PyStr) :
    Option HolidayRec :=
  if line.isEmpty || (pyStrip line).isEmpty then none
  else if List.isPrefixOf "holiday_date".data (pyLower (pyStrip line)) then
    none
  else
    let parts := splitOnChar ',' line
    let dateStr := pyStrip (parts.headD [])
    if dateStr.isEmpty then none
    else
      match parseDateYMD dateStr with
      | none => none
      | some (y, mo, dy) =>
        let t0 := civilToSecs (y : Int) (mo : Int) (dy : Int) 0 0 0
        let t := applyDelta gdelta t0
        some { time := t, endTime := t, value := 1,
               holidayDate := renderDateYMD y mo dy,
               symbolVal := cfg.symbolValue }

/-- Shifting a quote record's start and end time, leaving all else alone. -/
def shiftQuote (d : Int) (r : QuoteBarRec) : QuoteBarRec :=
  { r with time := r.time + d, endTime := r.endTime + d }

/-- Shifting a trade record's start and end time, leaving all else alone. -/
def shiftTrade (d : Int) (r : TradeRec) : TradeRec :=
  { r with time := r.time + d, endTime := r.endTime + d }

/-- Shifting a news record's start and end time, leaving all else alone. -/
def shiftNews (d : Int) (r : NewsRec) : NewsRec :=
  { r with time := r.time + d, endTime := r.endTime + d }

/-- Shifting a holiday record's start and end time; the `HolidayDate` string
is left untouched. -/
def shiftHoliday (d : Int) (r : HolidayRec) : HolidayRec :=
  { r with time := r.time + d, endTime := r.endTime + d }

/-- The configuration of the worked example: a 60-second increment and the
alias `EURUSD_IMPORT` (1min granularity). -/
def c3Cfg : ReaderConfig :=
  { increment := some 60, symbolValue := "EURUSD_IMPORT".data }

/-- The example quote line of the specification. -/
def c3Line : PyStr :=
  ("2025-07-10 00:00:00,1.17376,1.17377,1.17353,1.17359," ++
   "1.17387,1.17388,1.17363,1.17369,278").data

/-- The configuration used by the trade-reader witness. -/
def c7Cfg : ReaderConfig :=
  { increment := some 60, symbolValue := "EURUSD_IMPORT".data }

/-- The example trade line of the specification, and the same line with the
timestamp in milliseconds. -/
def c7LineS : PyStr := "1751836440,1.17777,1.17796,1.17777,1.17796,1".data

/-- The milliseconds variant of the example trade line. -/
def c7LineMs : PyStr :=
  "1751836440000,1.17777,1.17796,1.17777,1.17796,1".data

/-- Order direction (`OrderDirection`). -/
inductive Direction where
  | buy
  | sell
deriving DecidableEq

/-- The two order statuses this fill model assigns (`OrderStatus.FILLED` and
`OrderStatus.NONE`; the latter leaves the order pending). -/
inductive FillStatus where
  | filled
  | noFill
deriving DecidableEq

/-- The slice of the order-event object the fill model mutates. -/
@[ext] structure FillResult where
  fill_price : ℚ
  status : FillStatus
deriving DecidableEq

/-- The fill object returned by the base `FillModel` of this repository's
stub hierarchy: price 0 and no status (pending). -/
def baseFill : FillResult := { fill_price := 0, status := FillStatus.noFill }

/-- A limit order: a direction and a limit price (always present on the
host's `LimitOrder`). -/
structure LimitOrder where
  direction : Direction
  limit_price : ℚ

/-- A stop-market order: the stop price is read with `getattr` and may be
absent. -/
structure StopMarketOrder where
  direction : Direction
  stop_price : Option ℚ

/-- A trailing-stop order, carrying its current stop price. -/
structure TrailingStopOrder where
  direction : Direction
  stop_price : Option ℚ

/-- A stop-limit order; both threshold prices are read with `getattr`. -/
structure StopLimitOrder where
  direction : Direction
  stop_price : Option ℚ
  limit_price : Option ℚ

/-- The slice of `Security` the fill model reads: the reference price. -/
structure Security where
  price : ℚ

/-- The guard `qb is None or qb.bid is None or qb.ask is None` shared by all
fill entry points: the cached quote usable for pricing, when it exists. -/
def twoSided (qb? : Option QuoteBarRec) : Option (FxBar × FxBar) :=
  match qb? with
  | none => none
  | some qb =>
    match qb.bid, qb.ask with
    | some b, some a => some (b, a)
    | _, _ => none

/-- `ImportedQuoteFillModel.limit_fill` (lines 109-123): with no usable
cached quote the order stays pending; a BUY fills when `ask.close ≤ limit`
at `min(ask.close, limit)`, a SELL fills when `bid.close ≥ limit` at
`max(bid.close, limit)`; otherwise the base (pending) fill is returned. -/
def limitFill (qb? : Option QuoteBarRec) (order : LimitOrder) : FillResult :=
  match twoSided qb? with
  | none => { baseFill with status := FillStatus.noFill }
  | some (bidBar, askBar) =>
    match order.direction with
    | Direction.buy =>
      if askBar.c ≤ order.limit_price then
        { fill_price := min askBar.c order.limit_price,
          status := FillStatus.filled }
      else baseFill
    | Direction.sell =>
      if bidBar.c ≥ order.limit_price then
        { fill_price := max bidBar.c order.limit_price,
          status := FillStatus.filled }
      else baseFill

/-- `ImportedQuoteFillModel.stop_market_fill` (lines 125-169): with no usable
quote, the reference asset price is both trigger comparand and fill price;
with a quote, a BUY triggers when `ask.close ≥ stop` and fills at
`max(ask.close, stop)`, a SELL triggers when `bid.close ≤ stop` and fills at
`min(bid.close, stop)`.  A missing stop price leaves the base fill. -/
def stopMarketFill (qb? : Option QuoteBarRec) (asset : Security)
    (order : StopMarketOrder) : FillResult :=
  match twoSided qb? with
  | none =>
    let price := asset.price
    match order.stop_price with
    | none => baseFill
    | some sp =>
      match order.direction with
      | Direction.buy =>
        if price ≥ sp then { fill_price := price, status := FillStatus.filled }
        else baseFill
      | Direction.sell =>
        if price ≤ sp then { fill_price := price, status := FillStatus.filled }
        else baseFill
  | some (bidBar, askBar) =>
    match order.stop_price with
    | none => baseFill
    | some sp =>
      match order.direction with
      | Direction.buy =>
        if askBar.c ≥ sp then
          { fill_price := max askBar.c sp, status := FillStatus.filled }
        else baseFill
      | Direction.sell =>
        if bidBar.c ≤ sp then
          { fill_price := min bidBar.c sp, status := FillStatus.filled }
        else baseFill

/-- `ImportedQuoteFillModel.trailing_stop_fill` (lines 172-186): builds a
temporary stop-market-like order from the trailing order's direction and
current stop price and delegates to the stop-market rule. -/
def trailingStopFill (qb? : Option QuoteBarRec) (asset : Security)
    (order : TrailingStopOrder) : FillResult :=
  stopMarketFill qb? asset
    { direction := order.direction, stop_price := order.stop_price }

/-- `ImportedQuoteFillModel.stop_limit_fill` (lines 188-213): with no usable
quote, or a missing stop or limit price, the base (pending) fill is
returned; a BUY fills only when `ask.close ≥ stop` and `ask.close ≤ limit`,
at `min(ask.close, limit)`; a SELL fills only when `bid.close ≤ stop` and
`bid.close ≥ limit`, at `max(bid.close, limit)`. -/
def stopLimitFill (qb? : Option QuoteBarRec) (order : StopLimitOrder) :
    FillResult :=
  match twoSided qb? with
  | none => baseFill
  | some (bidBar, askBar) =>
    match order.stop_price, order.limit_price with
    | some s, some l =>
      match order.direction with
      | Direction.buy =>
        if askBar.c ≥ s ∧ askBar.c ≤ l then
          { fill_price := min askBar.c l, status := FillStatus.filled }
        else baseFill
      | Direction.sell =>
        if bidBar.c ≤ s ∧ bidBar.c ≥ l then
          { fill_price := max bidBar.c l, status := FillStatus.filled }
        else baseFill
    | _, _ => baseFill

/-- The two-sided quote of the limit-fill example: bid close 1.1742. -/
def c1Qb : QuoteBarRec :=
  { time := 0, endTime := 0, period := 0,
    bid := some ⟨1.1742, 1.1742, 1.1742, 1.1742⟩,
    ask := some ⟨1.1744, 1.1744, 1.1744, 1.1744⟩,
    value := 1.1743, symbolVal := [] }

/-- The same quote with bid close 1.1738, below the limit. -/
def c1QbLow : QuoteBarRec :=
  { time := 0, endTime := 0, period := 0,
    bid := some ⟨1.1738, 1.1738, 1.1738, 1.1738⟩,
    ask := some ⟨1.1740, 1.1740, 1.1740, 1.1740⟩,
    value := 1.1739, symbolVal := [] }

/-- The quote of the stop-limit example: ask close 1.1752, inside the
stop/limit window. -/
def c2Qb : QuoteBarRec :=
  { time := 0, endTime := 0, period := 0,
    bid := some ⟨1.1750, 1.1750, 1.1750, 1.1750⟩,
    ask := some ⟨1.1752, 1.1752, 1.1752, 1.1752⟩,
    value := 1.1751, symbolVal := [] }

/-- The same quote with ask close 1.1760: the stop trigger is met but the
close is above the limit. -/
def c2QbHigh : QuoteBarRec :=
  { time := 0, endTime := 0, period := 0,
    bid := some ⟨1.1758, 1.1758, 1.1758, 1.1758⟩,
    ask := some ⟨1.1760, 1.1760, 1.1760, 1.1760⟩,
    value := 1.1759, symbolVal := [] }

/-- The configuration used by the global-delta witness. -/
def c8Cfg : ReaderConfig := { increment := none, symbolValue := "EURUSD".data }

/-! ## Theorems settling the claims -/

theorem splitOnChar_ne_nil (sep : Char) (l : PyStr) : splitOnChar sep l ≠ [] := by
  induction l with
  | nil => simp [splitOnChar]
  | cons c rest ih =>
    simp only [splitOnChar]
    split
    · simp
    · split
      · simp
      · simp

theorem splitOnChar_append_cons (sep : Char) (a b : PyStr) (h : sep ∉ a) :
    splitOnChar sep (a ++ sep :: b) = a :: splitOnChar sep b := by
  induction a with
  | nil => simp [splitOnChar]
  | cons c rest ih =>
    have hc : ¬ c = sep := fun hcs => h (hcs ▸ List.mem_cons_self c rest)
    have hrest : sep ∉ rest := fun hm => h (List.mem_cons_of_mem c hm)
    simp only [List.cons_append, splitOnChar, if_neg hc, List.append_eq,
      ih hrest]

/-- Claim C5 counterexample: the claim as stated is false.  The produced key
for granularity `5min` is `fx-EURUSD-quotes-5min-utc.csv`, and applying the
repository's alias/key parser `_extract_pair_and_granularity` to that key
does not recover `5min`: the key carries no trailing `_<GRAN>` token, so the
parser returns the default granularity `1min`. -/
theorem extract_from_key_not_roundTrip :
    formatFxFilename "EURUSD".data "quotes".data "5min".data "utc".data none =
      Except.ok "fx-EURUSD-quotes-5min-utc.csv".data ∧
    (extractPairAndGranularity "fx-EURUSD-quotes-5min-utc.csv".data
        "1min".data).2 = "1min".data ∧
    "1min".data ≠ "5min".data := by
  refine ⟨by rfl, by decide, by decide⟩

/-- Claim C5 (amended): for every recognized granularity label `g`, the key
built by `format_fx_filename` embeds `g` as its fourth dash-separated
segment, so extracting that segment of the key yields `g` back — for every
pair and kind whose normalized forms contain no dash (the data model fixes
pairs to six letters and kinds to `quotes`/`trades`) and every time zone.
The alias parser `_extract_pair_and_granularity` does not recover `g` from
the key itself. -/
theorem key_granularity_segment_roundTrip (g pair kind tz : PyStr)
    (hg : g ∈ validGranularities)
    (hp : '-' ∉ pyUpper pair) (hk : '-' ∉ pyLower kind) :
    ∃ k, formatFxFilename pair kind g tz none = Except.ok k ∧
      (splitOnChar '-' k).get? 3 = some g := by
  have hglow : pyLower g = g ∧ '-' ∉ g := by
    simp only [validGranularities, List.mem_cons, List.not_mem_nil,
      or_false] at hg
    rcases hg with rfl | rfl | rfl | rfl | rfl | rfl | rfl | rfl <;>
      exact ⟨by decide, by decide⟩
  have hmem : pyLower g ∈ validGranularities := by rw [hglow.1]; exact hg
  refine ⟨fxKey pair kind g tz none, ?_, ?_⟩
  · simp only [formatFxFilename, if_pos hmem]
  · have hkey : fxKey pair kind g tz none =
        ['f', 'x'] ++ '-' :: (pyUpper pair ++ '-' :: (pyLower kind ++
          '-' :: (g ++ '-' :: (pyLower tz ++ ".csv".data)))) := by
      simp [fxKey, hglow.1]
    rw [hkey, splitOnChar_append_cons _ _ _ (by decide),
      splitOnChar_append_cons _ _ _ hp,
      splitOnChar_append_cons _ _ _ hk,
      splitOnChar_append_cons _ _ _ hglow.2]
    rfl

theorem key_granularity_segment_roundTrip_witness :
    ∃ k, formatFxFilename "EURUSD".data "quotes".data "5min".data "utc".data
        none = Except.ok k ∧
      (splitOnChar '-' k).get? 3 = some "5min".data :=
  key_granularity_segment_roundTrip "5min".data "EURUSD".data "quotes".data
    "utc".data (by decide) (by decide) (by decide)

/-- Claim C6: `format_fx_filename` raises an invalid-configuration error if
and only if the lower-cased granularity label is outside the fixed set
`{1s, 1min, 5min, 15min, 30min, 1h, 4h, 1d}`, and for every label inside the
set it returns the key `fx-<PAIR>-<kind>-<granularity>-<tz>[-<source>].csv`. -/
theorem formatFxFilename_raise_iff (pair kind gran tz : PyStr)
    (src? : Option PyStr) :
    ((∃ e, formatFxFilename pair kind gran tz src? = Except.error e) ↔
      pyLower gran ∉ validGranularities) ∧
    (pyLower gran ∈ validGranularities →
      formatFxFilename pair kind gran tz src? =
        Except.ok (fxKey pair kind gran tz src?)) := by
  by_cases hg : pyLower gran ∈ validGranularities <;>
    simp [formatFxFilename, hg]

theorem formatFxFilename_raise_iff_witness :
    (∃ e, formatFxFilename "EURUSD".data "quotes".data "2h".data "utc".data
        none = Except.error e) ∧
    formatFxFilename "EURUSD".data "quotes".data "5min".data "utc".data none =
      Except.ok (fxKey "EURUSD".data "quotes".data "5min".data "utc".data
        none) := by
  constructor
  · exact (formatFxFilename_raise_iff "EURUSD".data "quotes".data "2h".data
      "utc".data none).1.mpr (by decide)
  · exact (formatFxFilename_raise_iff "EURUSD".data "quotes".data "5min".data
      "utc".data none).2 (by decide)

/-- Claim C10: whenever the requested sampling interval is absent, or its
whole-second length is not exactly one of
{1, 60, 300, 900, 1800, 3600, 14400, 86400}, the derived granularity is the
default `1min` — the unsupported interval is silently mapped, not rejected. -/
theorem granularityFromIncrement_default_on_unsupported (inc : Option Int)
    (h : ∀ s, inc = some s → s ∉ granularitySupportedSeconds) :
    granularityFromIncrement inc = "1min".data := by
  match inc with
  | none => rfl
  | some secs =>
    have hs : secs ∉ granularitySupportedSeconds := h secs rfl
    simp only [granularitySupportedSeconds, List.mem_cons,
      List.not_mem_nil, or_false, not_or] at hs
    obtain ⟨h1, h60, h300, h900, h1800, h3600, h14400, h86400⟩ := hs
    simp only [granularityFromIncrement, granularityMapSeconds,
      if_neg h1, if_neg h60, if_neg h300, if_neg h900, if_neg h1800,
      if_neg h3600, if_neg h14400, if_neg h86400]
    split <;> rfl

theorem granularityFromIncrement_default_on_unsupported_witness :
    granularityFromIncrement (some 120) = "1min".data ∧
    granularityFromIncrement (some 7200) = "1min".data ∧
    granularityFromIncrement none = "1min".data :=
  ⟨granularityFromIncrement_default_on_unsupported (some 120)
      (by intro s hs; cases hs; decide),
   granularityFromIncrement_default_on_unsupported (some 7200)
      (by intro s hs; cases hs; decide),
   granularityFromIncrement_default_on_unsupported none
      (by intro s hs; cases hs)⟩

/-- Claim C8: with the global time offset set to a duration `d`, every record
any of the readers parses is exactly the record of the same parse with no
offset, with start and end time shifted by `d` and nothing else changed; in
particular a holiday record's `HolidayDate` string field is not shifted. -/
theorem globalDelta_shift_spec :
    (∀ d cfg line, readerQuote (some d) cfg line =
      (readerQuote none cfg line).map (shiftQuote d)) ∧
    (∀ d cfg line, readerTrade (some d) cfg line =
      (readerTrade none cfg line).map (shiftTrade d)) ∧
    (∀ bd ad d cfg line, readerSimulated bd ad (some d) cfg line =
      (readerSimulated bd ad none cfg line).map (shiftQuote d)) ∧
    (∀ d cfg line, readerNews (some d) cfg line =
      (readerNews none cfg line).map (shiftNews d)) ∧
    (∀ d cfg line, readerHoliday (some d) cfg line =
      (readerHoliday none cfg line).map (shiftHoliday d)) ∧
    (∀ d cfg line r r', readerHoliday (some d) cfg line = some r →
      readerHoliday none cfg line = some r' →
      r.holidayDate = r'.holidayDate) := by
  have hq : ∀ d cfg line, readerQuote (some d) cfg line =
      (readerQuote none cfg line).map (shiftQuote d) := by
    intro d cfg line
    simp only [readerQuote]
    cases h1 : isEmptyLine line
    case true => simp only [h1, if_true]; rfl
    case false =>
      simp only [h1, Bool.false_eq_true, if_false]
      cases hpd : parseDateTime (pyStrip ((splitOnChar ',' line).headD []))
      case none => rfl
      case some t0 =>
        try dsimp only
        cases hb : parse4Floats (((splitOnChar ',' line).drop 1).take 4)
        case none => rfl
        case some bs =>
          obtain ⟨b1, b2, b3, b4⟩ := bs
          try dsimp only
          cases ha : parse4Floats (((splitOnChar ',' line).drop 5).take 4)
          case none => rfl
          case some as_ =>
            obtain ⟨a1, a2, a3, a4⟩ := as_
            simp [applyDelta, shiftQuote]
            omega
  have ht : ∀ d cfg line, readerTrade (some d) cfg line =
      (readerTrade none cfg line).map (shiftTrade d) := by
    intro d cfg line
    simp only [readerTrade]
    cases h1 : (isEmptyLine line || List.isPrefixOf "time".data line)
    case true => simp only [h1, if_true]; rfl
    case false =>
      simp only [h1, Bool.false_eq_true, if_false]
      cases hts : parseInt? (pyStrip ((splitOnChar ',' line).headD []))
      case none => rfl
      case some tsRaw =>
        try dsimp only
        cases hr : fromtimestampUtc (normalizeTs tsRaw)
        case none => rfl
        case some t0 =>
          try dsimp only
          cases hf : parseTradeFields (splitOnChar ',' line)
          case none => rfl
          case some fs =>
            obtain ⟨q1, q2, q3, q4, vol⟩ := fs
            simp [applyDelta, shiftTrade]
            omega
  have hs : ∀ bd ad d cfg line, readerSimulated bd ad (some d) cfg line =
      (readerSimulated bd ad none cfg line).map (shiftQuote d) := by
    intro bd ad d cfg line
    simp only [readerSimulated]
    cases h1 : (isEmptyLine line || List.isPrefixOf "time".data line)
    case true => simp only [h1, if_true]; rfl
    case false =>
      simp only [h1, Bool.false_eq_true, if_false]
      cases hts : parseInt? (pyStrip ((splitOnChar ',' line).headD []))
      case none => rfl
      case some tsRaw =>
        try dsimp only
        cases hr : fromtimestampUtc (normalizeTs tsRaw)
        case none => rfl
        case some t0 =>
          try dsimp only
          cases h2 : ((splitOnChar ',' line).get? 1).bind parseFloat? <;>
            cases h3 : ((splitOnChar ',' line).get? 2).bind parseFloat? <;>
            cases h4 : ((splitOnChar ',' line).get? 3).bind parseFloat? <;>
            cases h5 : ((splitOnChar ',' line).get? 4).bind parseFloat? <;>
            try rfl
          simp [applyDelta, shiftQuote]
          omega
  have hn : ∀ d cfg line, readerNews (some d) cfg line =
      (readerNews none cfg line).map (shiftNews d) := by
    intro d cfg line
    simp only [readerNews]
    cases h1 : ((pyStrip line).isEmpty || List.isPrefixOf "date".data line)
    case true => simp only [h1, if_true]; rfl
    case false =>
      simp only [h1, Bool.false_eq_true, if_false]
      by_cases h2 : (splitOnChar ',' line).length = 2
      · have hcond : ¬ ((splitOnChar ',' line).length ≠ 2) := by omega
        rw [if_neg hcond, if_neg hcond]
        cases hpd : parseDateTime (pyStrip ((splitOnChar ',' line).headD []))
        · rfl
        · try dsimp only
          cases hst : parseInt? (pyStrip ((splitOnChar ',' line).getD 1 []))
          · rfl
          · rfl
      · rw [if_pos h2, if_pos h2]; rfl
  have hh : ∀ d cfg line, readerHoliday (some d) cfg line =
      (readerHoliday none cfg line).map (shiftHoliday d) := by
    intro d cfg line
    simp only [readerHoliday]
    cases h1 : (line.isEmpty || (pyStrip line).isEmpty)
    case true => simp only [h1, if_true]; rfl
    case false =>
      simp only [h1, Bool.false_eq_true, if_false]
      cases h2 : List.isPrefixOf "holiday_date".data (pyLower (pyStrip line))
      case true => simp only [h2, if_true]; rfl
      case false =>
        simp only [h2, Bool.false_eq_true, if_false]
        cases h3 : (pyStrip ((splitOnChar ',' line).headD [])).isEmpty
        case true => simp only [h3, if_true]; rfl
        case false =>
          simp only [h3, Bool.false_eq_true, if_false]
          cases hpd : parseDateYMD (pyStrip ((splitOnChar ',' line).headD []))
          case none => rfl
          case some ymd => obtain ⟨y, mo, dy⟩ := ymd; rfl
  refine ⟨hq, ht, hs, hn, hh, ?_⟩
  intro d cfg line r r' hr hr'
  rw [hh d cfg line, hr', Option.map_some'] at hr
  cases hr
  rfl

/-- Claim C3: for every well-formed quote CSV line — a parsable
`YYYY-MM-DD HH:MM:SS` date followed by eight parsable numbers (and anything
further) — with no global time offset set, the quote reader returns a record
whose start time is the parsed date, whose bid OHLC comes from fields 1-4
and ask OHLC from fields 5-8 (0-indexed; fields 2-5 and 6-9 1-indexed),
whose period is the timedelta of the derived granularity, and whose end time
is start time plus period. -/
theorem quoteReader_wellFormed (cfg : ReaderConfig) (line : PyStr)
    (dateStr f1 f2 f3 f4 f5 f6 f7 f8 : PyStr) (rest : List PyStr) (t0 : Int)
    (b1 b2 b3 b4 a1 a2 a3 a4 : ℚ)
    (hsplit : splitOnChar ',' line =
      dateStr :: f1 :: f2 :: f3 :: f4 :: f5 :: f6 :: f7 :: f8 :: rest)
    (hne : isEmptyLine line = false)
    (hdate : parseDateTime (pyStrip dateStr) = some t0)
    (hb1 : parseFloat? f1 = some b1) (hb2 : parseFloat? f2 = some b2)
    (hb3 : parseFloat? f3 = some b3) (hb4 : parseFloat? f4 = some b4)
    (ha1 : parseFloat? f5 = some a1) (ha2 : parseFloat? f6 = some a2)
    (ha3 : parseFloat? f7 = some a3) (ha4 : parseFloat? f8 = some a4) :
    readerQuote none cfg line =
      some { time := t0, endTime := t0 + derivedPeriod cfg,
             period := derivedPeriod cfg,
             bid := some ⟨b1, b2, b3, b4⟩, ask := some ⟨a1, a2, a3, a4⟩,
             value := (b4 + a4) / 2, symbolVal := cfg.symbolValue } := by
  have e1 : parse4Floats [f1, f2, f3, f4] = some (b1, b2, b3, b4) := by
    simp only [parse4Floats, hb1, hb2, hb3, hb4]
  have e2 : parse4Floats [f5, f6, f7, f8] = some (a1, a2, a3, a4) := by
    simp only [parse4Floats, ha1, ha2, ha3, ha4]
  simp only [readerQuote, hne, Bool.false_eq_true, if_false, hsplit]
  dsimp only [List.headD, List.drop, List.take]
  rw [hdate]
  dsimp only
  rw [e1, e2]
  rfl

theorem quoteReader_wellFormed_witness :
    readerQuote none c3Cfg c3Line =
      some { time := civilToSecs 2025 7 10 0 0 0,
             endTime := civilToSecs 2025 7 10 0 1 0, period := 60,
             bid := some ⟨1.17376, 1.17377, 1.17353, 1.17359⟩,
             ask := some ⟨1.17387, 1.17388, 1.17363, 1.17369⟩,
             value := (1.17359 + 1.17369) / 2,
             symbolVal := "EURUSD_IMPORT".data } := by
  have hf1 : parseFloat? "1.17376".data = some 1.17376 := by
    simp +decide [parseFloat?, parseDecMantissa, splitAtFirst, parseNatAll,
      allDigits, charsToNat, digToNat, pyStrip, pyIsSpace, pow10Z,
      List.dropWhile]
    norm_num
  have hf2 : parseFloat? "1.17377".data = some 1.17377 := by
    simp +decide [parseFloat?, parseDecMantissa, splitAtFirst, parseNatAll,
      allDigits, charsToNat, digToNat, pyStrip, pyIsSpace, pow10Z,
      List.dropWhile]
    norm_num
  have hf3 : parseFloat? "1.17353".data = some 1.17353 := by
    simp +decide [parseFloat?, parseDecMantissa, splitAtFirst, parseNatAll,
      allDigits, charsToNat, digToNat, pyStrip, pyIsSpace, pow10Z,
      List.dropWhile]
    norm_num
  have hf4 : parseFloat? "1.17359".data = some 1.17359 := by
    simp +decide [parseFloat?, parseDecMantissa, splitAtFirst, parseNatAll,
      allDigits, charsToNat, digToNat, pyStrip, pyIsSpace, pow10Z,
      List.dropWhile]
    norm_num
  have hf5 : parseFloat? "1.17387".data = some 1.17387 := by
    simp +decide [parseFloat?, parseDecMantissa, splitAtFirst, parseNatAll,
      allDigits, charsToNat, digToNat, pyStrip, pyIsSpace, pow10Z,
      List.dropWhile]
    norm_num
  have hf6 : parseFloat? "1.17388".data = some 1.17388 := by
    simp +decide [parseFloat?, parseDecMantissa, splitAtFirst, parseNatAll,
      allDigits, charsToNat, digToNat, pyStrip, pyIsSpace, pow10Z,
      List.dropWhile]
    norm_num
  have hf7 : parseFloat? "1.17363".data = some 1.17363 := by
    simp +decide [parseFloat?, parseDecMantissa, splitAtFirst, parseNatAll,
      allDigits, charsToNat, digToNat, pyStrip, pyIsSpace, pow10Z,
      List.dropWhile]
    norm_num
  have hf8 : parseFloat? "1.17369".data = some 1.17369 := by
    simp +decide [parseFloat?, parseDecMantissa, splitAtFirst, parseNatAll,
      allDigits, charsToNat, digToNat, pyStrip, pyIsSpace, pow10Z,
      List.dropWhile]
    norm_num
  have h := quoteReader_wellFormed c3Cfg c3Line
    "2025-07-10 00:00:00".data "1.17376".data "1.17377".data "1.17353".data
    "1.17359".data "1.17387".data "1.17388".data "1.17363".data
    "1.17369".data ["278".data] (civilToSecs 2025 7 10 0 0 0)
    1.17376 1.17377 1.17353 1.17359 1.17387 1.17388 1.17363 1.17369
    (by decide) (by decide) (by decide)
    hf1 hf2 hf3 hf4 hf5 hf6 hf7 hf8
  rw [h]
  have hper : derivedPeriod c3Cfg = 60 := by decide
  have hend : civilToSecs 2025 7 10 0 0 0 + 60 =
      civilToSecs 2025 7 10 0 1 0 := by decide
  rw [hper, hend]
  rfl

/-- Claim C4: every input line that is empty, whitespace-only, or does not
begin with a digit yields no record from the quote reader and the trade
reader, and every parse failure — an unparsable date, a missing or
non-numeric bid/ask field, an unparsable timestamp, a missing or
non-numeric trade field — also yields no record.  The readers are total
functions into `Option`, so no exception escapes. -/
theorem readers_degrade :
    (∀ gdelta cfg line, isEmptyLine line = true →
      readerQuote gdelta cfg line = none ∧
      readerTrade gdelta cfg line = none) ∧
    (∀ gdelta cfg line,
      parseDateTime (pyStrip ((splitOnChar ',' line).headD [])) = none →
      readerQuote gdelta cfg line = none) ∧
    (∀ gdelta cfg line,
      parse4Floats (((splitOnChar ',' line).drop 1).take 4) = none ∨
      parse4Floats (((splitOnChar ',' line).drop 5).take 4) = none →
      readerQuote gdelta cfg line = none) ∧
    (∀ gdelta cfg line,
      parseInt? (pyStrip ((splitOnChar ',' line).headD [])) = none →
      readerTrade gdelta cfg line = none) ∧
    (∀ gdelta cfg line,
      parseTradeFields (splitOnChar ',' line) = none →
      readerTrade gdelta cfg line = none) := by
  refine ⟨?_, ?_, ?_, ?_, ?_⟩
  · intro gdelta cfg line h
    constructor
    · simp only [readerQuote, h, if_true]
    · simp only [readerTrade, h, Bool.true_or, if_true]
  · intro gdelta cfg line h
    simp only [readerQuote]
    cases h1 : isEmptyLine line
    case true => simp only [h1, if_true]
    case false =>
      simp only [h1, Bool.false_eq_true, if_false]
      rw [h]
  · intro gdelta cfg line h
    simp only [readerQuote]
    cases h1 : isEmptyLine line
    case true => simp only [h1, if_true]
    case false =>
      simp only [h1, Bool.false_eq_true, if_false]
      cases hpd : parseDateTime (pyStrip ((splitOnChar ',' line).headD []))
      case none => rfl
      case some t0 =>
        try dsimp only
        rcases h with h | h
        · rw [h]
        · rw [h]
          cases hb : parse4Floats (((splitOnChar ',' line).drop 1).take 4)
          case none => rfl
          case some bs => obtain ⟨b1, b2, b3, b4⟩ := bs; rfl
  · intro gdelta cfg line h
    simp only [readerTrade]
    cases h1 : (isEmptyLine line || List.isPrefixOf "time".data line)
    case true => simp only [h1, if_true]
    case false =>
      simp only [h1, Bool.false_eq_true, if_false]
      rw [h]
  · intro gdelta cfg line h
    simp only [readerTrade]
    cases h1 : (isEmptyLine line || List.isPrefixOf "time".data line)
    case true => simp only [h1, if_true]
    case false =>
      simp only [h1, Bool.false_eq_true, if_false]
      cases hts : parseInt? (pyStrip ((splitOnChar ',' line).headD []))
      case none => rfl
      case some tsRaw =>
        try dsimp only
        cases hr : fromtimestampUtc (normalizeTs tsRaw)
        case none => rfl
        case some t0 =>
          try dsimp only
          rw [h]

theorem readers_degrade_witness :
    readerQuote none ⟨none, "EURUSD".data⟩ "".data = none ∧
    readerQuote none ⟨none, "EURUSD".data⟩ "   ".data = none ∧
    readerQuote none ⟨none, "EURUSD".data⟩
      ("Date,BidOpen,BidHigh,BidLow,BidClose," ++
       "AskOpen,AskHigh,AskLow,AskClose,Volume").data = none ∧
    readerTrade none ⟨none, "EURUSD".data⟩
      "time,open,high,low,close,Volume".data = none ∧
    readerQuote none ⟨none, "EURUSD".data⟩
      "9999-99-99 00:00:00,1,1,1,1,1,1,1,1,1".data = none ∧
    readerQuote none ⟨none, "EURUSD".data⟩
      "2025-07-10 00:00:00,1.0,2.0".data = none ∧
    readerQuote none ⟨none, "EURUSD".data⟩
      "2025-07-10 00:00:00,abc,1,1,1,1,1,1,1,1".data = none ∧
    readerTrade none ⟨none, "EURUSD".data⟩ "12x,1,1,1,1,1".data = none ∧
    readerTrade none ⟨none, "EURUSD".data⟩ "1751836440,1.0,1.0".data = none :=
  ⟨(readers_degrade.1 none _ _ (by decide)).1,
   (readers_degrade.1 none _ _ (by decide)).1,
   (readers_degrade.1 none _ _ (by decide)).1,
   (readers_degrade.1 none _ _ (by decide)).2,
   readers_degrade.2.1 none _ _ (by decide),
   readers_degrade.2.2.1 none _ _ (Or.inr (by decide)),
   readers_degrade.2.2.1 none _ _ (Or.inl (by decide)),
   readers_degrade.2.2.2.1 none _ _ (by decide),
   readers_degrade.2.2.2.2 none _ _ (by decide)⟩

/-- Claim C7: for every trade CSV line whose leading integer timestamp `ts`
exceeds `10^12`, the trade reader treats it as milliseconds and divides it
down to seconds before converting to UTC, while a timestamp not exceeding
`10^12` is used as Unix seconds directly; the rest of the record carries the
four OHLC numbers and the integer volume of the remaining fields. -/
theorem tradeReader_timestamp_spec (gdelta : Option Int) (cfg : ReaderConfig)
    (line tsStr f1 f2 f3 f4 volS : PyStr) (rest : List PyStr) (ts : Int)
    (q1 q2 q3 q4 : ℚ) (vol : Int)
    (hsplit : splitOnChar ',' line =
      tsStr :: f1 :: f2 :: f3 :: f4 :: volS :: rest)
    (hne : isEmptyLine line = false)
    (hhd : List.isPrefixOf "time".data line = false)
    (hts : parseInt? (pyStrip tsStr) = some ts)
    (hq1 : parseFloat? f1 = some q1) (hq2 : parseFloat? f2 = some q2)
    (hq3 : parseFloat? f3 = some q3) (hq4 : parseFloat? f4 = some q4)
    (hvol : parseInt? volS = some vol)
    (hrange : fromtimestampUtc
      (if (10 : Int) ^ (12 : Nat) < ts then ts / 1000 else ts) =
      some (if (10 : Int) ^ (12 : Nat) < ts then ts / 1000 else ts)) :
    readerTrade gdelta cfg line =
      some { time := applyDelta gdelta
               (if (10 : Int) ^ (12 : Nat) < ts then ts / 1000 else ts),
             endTime := applyDelta gdelta
               (if (10 : Int) ^ (12 : Nat) < ts then ts / 1000 else ts) +
               derivedPeriod cfg,
             period := derivedPeriod cfg, o := q1, h := q2, l := q3, c := q4,
             volume := vol, value := q4,
             symbolVal := cfg.symbolValue } := by
  have e : parseTradeFields (tsStr :: f1 :: f2 :: f3 :: f4 :: volS :: rest) =
      some (q1, q2, q3, q4, vol) := by
    dsimp only [parseTradeFields, List.get?, Option.bind]
    rw [hq1, hq2, hq3, hq4, hvol]
  simp only [readerTrade, hne, hhd, Bool.or_self, Bool.false_eq_true,
    if_false, hsplit]
  dsimp only [List.headD]
  rw [hts]
  dsimp only [normalizeTs]
  rw [hrange]
  dsimp only
  rw [e]

theorem tradeReader_timestamp_spec_witness :
    readerTrade none c7Cfg c7LineS = readerTrade none c7Cfg c7LineMs ∧
    ∃ r, readerTrade none c7Cfg c7LineS = some r ∧
      r.time = 1751836440 ∧ r.c = 1.17796 ∧ r.volume = 1 := by
  have hv1 : parseFloat? "1.17777".data = some 1.17777 := by
    simp +decide [parseFloat?, parseDecMantissa, splitAtFirst, parseNatAll,
      allDigits, charsToNat, digToNat, pyStrip, pyIsSpace, pow10Z,
      List.dropWhile]
    norm_num
  have hv2 : parseFloat? "1.17796".data = some 1.17796 := by
    simp +decide [parseFloat?, parseDecMantissa, splitAtFirst, parseNatAll,
      allDigits, charsToNat, digToNat, pyStrip, pyIsSpace, pow10Z,
      List.dropWhile]
    norm_num
  have hS := tradeReader_timestamp_spec none c7Cfg c7LineS
    "1751836440".data "1.17777".data "1.17796".data "1.17777".data
    "1.17796".data "1".data [] 1751836440 1.17777 1.17796 1.17777 1.17796 1
    (by decide) (by decide) (by decide) (by decide)
    hv1 hv2 hv1 hv2 (by decide) (by decide)
  have hMs := tradeReader_timestamp_spec none c7Cfg c7LineMs
    "1751836440000".data "1.17777".data "1.17796".data "1.17777".data
    "1.17796".data "1".data [] 1751836440000 1.17777 1.17796 1.17777 1.17796
    1 (by decide) (by decide) (by decide) (by decide)
    hv1 hv2 hv1 hv2 (by decide) (by decide)
  rw [hS, hMs]
  have hm : ((10 : Int) ^ (12 : Nat) < 1751836440) = False := by decide
  have hM : ((10 : Int) ^ (12 : Nat) < 1751836440000) = True := by decide
  have hdiv : (1751836440000 : Int) / 1000 = 1751836440 := by decide
  simp only [hm, hM, if_false, if_true, hdiv, applyDelta]
  refine ⟨by trivial, _, rfl, rfl, rfl, rfl⟩

/-- Claim C1: when the last-quote cache holds a quote with both bid and ask,
a BUY limit order fills exactly when `ask.close ≤ limit`, at
`min(ask.close, limit)`, and a SELL limit order fills exactly when
`bid.close ≥ limit`, at `max(bid.close, limit)`; with an empty cache or a
quote missing either side, the limit order remains pending. -/
theorem limitFill_spec :
    (∀ (qb : QuoteBarRec) (bidBar askBar : FxBar) (l : ℚ),
      qb.bid = some bidBar → qb.ask = some askBar →
      (((limitFill (some qb) ⟨Direction.buy, l⟩).status = FillStatus.filled) ↔
        askBar.c ≤ l) ∧
      (askBar.c ≤ l →
        (limitFill (some qb) ⟨Direction.buy, l⟩).fill_price =
          min askBar.c l)) ∧
    (∀ (qb : QuoteBarRec) (bidBar askBar : FxBar) (l : ℚ),
      qb.bid = some bidBar → qb.ask = some askBar →
      (((limitFill (some qb) ⟨Direction.sell, l⟩).status = FillStatus.filled) ↔
        bidBar.c ≥ l) ∧
      (bidBar.c ≥ l →
        (limitFill (some qb) ⟨Direction.sell, l⟩).fill_price =
          max bidBar.c l)) ∧
    (∀ o, (limitFill none o).status = FillStatus.noFill) ∧
    (∀ (qb : QuoteBarRec) (o : LimitOrder), qb.bid = none ∨ qb.ask = none →
      (limitFill (some qb) o).status = FillStatus.noFill) := by
  refine ⟨?_, ?_, ?_, ?_⟩
  · intro qb bidBar askBar l hb ha
    obtain ⟨t, e, p, bid, ask, v, sv⟩ := qb
    dsimp only at hb ha
    subst hb; subst ha
    dsimp only [limitFill, twoSided]
    constructor
    · by_cases hc : askBar.c ≤ l
      · rw [if_pos hc]; simp [hc]
      · rw [if_neg hc]; simp [baseFill, hc]
    · intro hc; rw [if_pos hc]
  · intro qb bidBar askBar l hb ha
    obtain ⟨t, e, p, bid, ask, v, sv⟩ := qb
    dsimp only at hb ha
    subst hb; subst ha
    dsimp only [limitFill, twoSided]
    constructor
    · by_cases hc : bidBar.c ≥ l
      · rw [if_pos hc]; simp [hc]
      · rw [if_neg hc]; simp [baseFill, hc]
    · intro hc; rw [if_pos hc]
  · intro o; rfl
  · intro qb o h
    obtain ⟨t, e, p, bid, ask, v, sv⟩ := qb
    dsimp only at h
    rcases h with h | h
    · subst h; rfl
    · subst h
      rcases bid with _ | b <;> rfl

theorem limitFill_spec_witness :
    (limitFill (some c1Qb) ⟨Direction.sell, 1.1740⟩).status =
      FillStatus.filled ∧
    (limitFill (some c1Qb) ⟨Direction.sell, 1.1740⟩).fill_price = 1.1742 ∧
    (limitFill (some c1QbLow) ⟨Direction.sell, 1.1740⟩).status =
      FillStatus.noFill ∧
    (limitFill none ⟨Direction.sell, 1.1740⟩).status = FillStatus.noFill := by
  obtain ⟨hbuy, hsell, hnone, hmiss⟩ := limitFill_spec
  have h1 := hsell c1Qb ⟨1.1742, 1.1742, 1.1742, 1.1742⟩
    ⟨1.1744, 1.1744, 1.1744, 1.1744⟩ 1.1740 rfl rfl
  have h2 := hsell c1QbLow ⟨1.1738, 1.1738, 1.1738, 1.1738⟩
    ⟨1.1740, 1.1740, 1.1740, 1.1740⟩ 1.1740 rfl rfl
  refine ⟨h1.1.mpr (by norm_num), ?_, ?_, hnone _⟩
  · rw [h1.2 (by norm_num)]
    rw [max_eq_left (by norm_num)]
  · cases hstatus : (limitFill (some c1QbLow) ⟨Direction.sell, 1.1740⟩).status
    case filled => exact absurd (h2.1.mp hstatus) (by norm_num)
    case noFill => rfl

/-- Claim C2: when the cache holds a two-sided quote and the order carries
both a stop and a limit price, a BUY stop-limit fills exactly when
`ask.close ≥ stop` and `ask.close ≤ limit`, at `min(ask.close, limit)`; a
SELL fills exactly when `bid.close ≤ stop` and `bid.close ≥ limit`, at
`max(bid.close, limit)`; with no usable cached quote the order remains
pending (the base fill is returned unchanged). -/
theorem stopLimitFill_spec :
    (∀ (qb : QuoteBarRec) (bidBar askBar : FxBar) (s l : ℚ),
      qb.bid = some bidBar → qb.ask = some askBar →
      (((stopLimitFill (some qb) ⟨Direction.buy, some s, some l⟩).status =
          FillStatus.filled) ↔ (askBar.c ≥ s ∧ askBar.c ≤ l)) ∧
      (askBar.c ≥ s ∧ askBar.c ≤ l →
        (stopLimitFill (some qb)
          ⟨Direction.buy, some s, some l⟩).fill_price = min askBar.c l)) ∧
    (∀ (qb : QuoteBarRec) (bidBar askBar : FxBar) (s l : ℚ),
      qb.bid = some bidBar → qb.ask = some askBar →
      (((stopLimitFill (some qb) ⟨Direction.sell, some s, some l⟩).status =
          FillStatus.filled) ↔ (bidBar.c ≤ s ∧ bidBar.c ≥ l)) ∧
      (bidBar.c ≤ s ∧ bidBar.c ≥ l →
        (stopLimitFill (some qb)
          ⟨Direction.sell, some s, some l⟩).fill_price = max bidBar.c l)) ∧
    (∀ o, stopLimitFill none o = baseFill) ∧
    (∀ (qb : QuoteBarRec) (o : StopLimitOrder),
      qb.bid = none ∨ qb.ask = none →
      stopLimitFill (some qb) o = baseFill) := by
  refine ⟨?_, ?_, ?_, ?_⟩
  · intro qb bidBar askBar s l hb ha
    obtain ⟨t, e, p, bid, ask, v, sv⟩ := qb
    dsimp only at hb ha
    subst hb; subst ha
    dsimp only [stopLimitFill, twoSided]
    constructor
    · by_cases hc : askBar.c ≥ s ∧ askBar.c ≤ l
      · rw [if_pos hc]; simp [hc]
      · rw [if_neg hc]; simp [baseFill, hc]
    · intro hc; rw [if_pos hc]
  · intro qb bidBar askBar s l hb ha
    obtain ⟨t, e, p, bid, ask, v, sv⟩ := qb
    dsimp only at hb ha
    subst hb; subst ha
    dsimp only [stopLimitFill, twoSided]
    constructor
    · by_cases hc : bidBar.c ≤ s ∧ bidBar.c ≥ l
      · rw [if_pos hc]; simp [hc]
      · rw [if_neg hc]; simp [baseFill, hc]
    · intro hc; rw [if_pos hc]
  · intro o; rfl
  · intro qb o h
    obtain ⟨t, e, p, bid, ask, v, sv⟩ := qb
    dsimp only at h
    rcases h with h | h
    · subst h; rfl
    · subst h
      rcases bid with _ | b <;> rfl

theorem stopLimitFill_spec_witness :
    (stopLimitFill (some c2Qb)
      ⟨Direction.buy, some 1.1750, some 1.1755⟩).status =
      FillStatus.filled ∧
    (stopLimitFill (some c2Qb)
      ⟨Direction.buy, some 1.1750, some 1.1755⟩).fill_price = 1.1752 ∧
    (1.1760 : ℚ) ≥ 1.1750 ∧
    (stopLimitFill (some c2QbHigh)
      ⟨Direction.buy, some 1.1750, some 1.1755⟩).status =
      FillStatus.noFill ∧
    (stopLimitFill none
      ⟨Direction.buy, some 1.1750, some 1.1755⟩).status =
      FillStatus.noFill := by
  obtain ⟨hbuy, hsell, hnone, hmiss⟩ := stopLimitFill_spec
  have h1 := hbuy c2Qb ⟨1.1750, 1.1750, 1.1750, 1.1750⟩
    ⟨1.1752, 1.1752, 1.1752, 1.1752⟩ 1.1750 1.1755 rfl rfl
  have h2 := hbuy c2QbHigh ⟨1.1758, 1.1758, 1.1758, 1.1758⟩
    ⟨1.1760, 1.1760, 1.1760, 1.1760⟩ 1.1750 1.1755 rfl rfl
  refine ⟨h1.1.mpr (by norm_num), ?_, by norm_num, ?_, ?_⟩
  · rw [h1.2 (by norm_num)]
    rw [min_eq_left (by norm_num)]
  · cases hstatus : (stopLimitFill (some c2QbHigh)
        ⟨Direction.buy, some 1.1750, some 1.1755⟩).status
    case filled =>
      have := h2.1.mp hstatus
      exact absurd this.2 (by norm_num)
    case noFill => rfl
  · rw [hnone]; rfl

/-- Claim C9: for every asset and every trailing-stop order, the
trailing-stop fill evaluation is exactly the stop-market fill evaluation of
an order with the same direction and the trailing order's current stop
price: the results (fill/no-fill outcome and fill price) are equal. -/
theorem trailingStop_eq_stopMarket :
    ∀ (qb? : Option QuoteBarRec) (asset : Security) (o : TrailingStopOrder),
      trailingStopFill qb? asset o =
        stopMarketFill qb? asset
          { direction := o.direction, stop_price := o.stop_price } :=
  fun _ _ _ => rfl

theorem globalDelta_shift_spec_witness :
    readerHoliday (some 90) c8Cfg "2025-01-09".data =
      (readerHoliday none c8Cfg "2025-01-09".data).map (shiftHoliday 90) ∧
    ∃ r r', readerHoliday (some 90) c8Cfg "2025-01-09".data = some r ∧
      readerHoliday none c8Cfg "2025-01-09".data = some r' ∧
      r.holidayDate = r'.holidayDate ∧ r.time = r'.time + 90 ∧
      r.holidayDate = "2025-01-09".data := by
  obtain ⟨hq, ht, hs, hn, hh, hdate⟩ := globalDelta_shift_spec
  have e1 : readerHoliday (some 90) c8Cfg "2025-01-09".data =
      some { time := civilToSecs 2025 1 9 0 0 0 + 90,
             endTime := civilToSecs 2025 1 9 0 0 0 + 90, value := 1,
             holidayDate := "2025-01-09".data,
             symbolVal := "EURUSD".data } := by decide
  have e2 : readerHoliday none c8Cfg "2025-01-09".data =
      some { time := civilToSecs 2025 1 9 0 0 0,
             endTime := civilToSecs 2025 1 9 0 0 0, value := 1,
             holidayDate := "2025-01-09".data,
             symbolVal := "EURUSD".data } := by decide
  exact ⟨hh 90 c8Cfg _,
    _, _, e1, e2, hdate 90 c8Cfg _ _ _ e1 e2, by decide, by decide⟩
